import Mathlib

/-!
Shallow embedding of the space-warp particle animation core.

The main per-frame update lives in the `Scene` component's frame callback
(`src/unnamed/part_000`): for each particle it computes a stretch scale from an
exponential decay of elapsed time, advances `z` by a clamped step (or recycles
the particle when `z` has crossed the near plane), and derives a monochrome
color from the updated `z`.  A second variant (`src/src/Scene.tsx`) computes
the post-process distortion offset with `max` instead of `clamp`, and an
earlier iteration (`src/unnamed/part_002`, `Stars2`) carries a boolean warp
flag toggled by a velocity threshold.  All numeric state is modelled over ℝ.
-/

/-- Tunable constants of `src/unnamed/part_000`. -/
def Z_BOUNDS : ℝ := 20

def MAX_SPEED_FACTOR : ℝ := 40

def MAX_SCALE_FACTOR : ℝ := 40

def CHROMATIC_ABBERATION_OFFSET : ℝ := 0.007

/-- `clamp(min, value, max)` of `src/unnamed/part_000` (lines 149–151),
which returns `Math.min(max, Math.max(min, value))`. -/
def clamp (lo value hi : ℝ) : ℝ := min hi (max lo value)

/-- The warp-intensity decay curve `Math.pow(0.5, elapsedTime)` used throughout
the frame callback of `src/unnamed/part_000`. -/
noncomputable def decay (t : ℝ) : ℝ := (0.5 : ℝ) ^ t

/-- Per-frame stretch scale written as `scale.z`
(`src/unnamed/part_000`, lines 61–69):
`clamp(1, Math.pow(0.5, elapsedTime) * MAX_SCALE_FACTOR, MAX_SCALE_FACTOR)`. -/
noncomputable def scaleZ (elapsedTime : ℝ) : ℝ :=
  clamp 1 (decay elapsedTime * MAX_SCALE_FACTOR) MAX_SCALE_FACTOR

/-- The full scale triple written each frame:
`tempObject.scale.set(1, 1, clamp(...))`. -/
noncomputable def updateScale (elapsedTime : ℝ) : ℝ × ℝ × ℝ :=
  (1, 1, scaleZ elapsedTime)

/-- Per-frame translation step
(`src/unnamed/part_000`, lines 76–80):
`clamp(delta, Math.pow(0.5, elapsedTime), delta * MAX_SPEED_FACTOR)`. -/
noncomputable def step (elapsedTime delta : ℝ) : ℝ :=
  clamp delta (decay elapsedTime) (delta * MAX_SPEED_FACTOR)

/-- The `z` update of one particle for one frame
(`src/unnamed/part_000`, lines 73–81): recycle to the far plane if `z` has
crossed the near plane, otherwise advance by the clamped step. -/
noncomputable def updateZ (elapsedTime delta z : ℝ) : ℝ :=
  if z < -Z_BOUNDS / 2 then Z_BOUNDS / 2
  else z - step elapsedTime delta

/-- A particle position as stored in the instance matrix. -/
structure Particle where
  x : ℝ
  y : ℝ
  z : ℝ

/-- One frame's position write for one particle
(`src/unnamed/part_000`, lines 72–86): `x` and `y` are read from the stored
matrix and written back unchanged; only `z` is updated. -/
noncomputable def updateParticle (elapsedTime delta : ℝ) (p : Particle) : Particle :=
  { x := p.x, y := p.y, z := updateZ elapsedTime delta p.z }

/-- A monochrome-by-construction color triple. -/
structure Color where
  r : ℝ
  g : ℝ
  b : ℝ

/-- The per-frame color write (`src/unnamed/part_000`, lines 88–97), computed
from the particle's updated `z`: fully lit for `z > 0`, otherwise the linear
ramp `1 - z / (-Z_BOUNDS / 2)`. -/
noncomputable def colorOf (z : ℝ) : Color :=
  if z > 0 then ⟨1, 1, 1⟩
  else ⟨1 - z / (-Z_BOUNDS / 2), 1 - z / (-Z_BOUNDS / 2), 1 - z / (-Z_BOUNDS / 2)⟩

/-- Distortion offset written to `offset.x` and `offset.y` each frame by the
clamping variant (`src/unnamed/part_000`, lines 104–114). -/
noncomputable def offsetPair (t : ℝ) : ℝ × ℝ :=
  (clamp 0 (decay t * CHROMATIC_ABBERATION_OFFSET) CHROMATIC_ABBERATION_OFFSET,
   clamp 0 (decay t * CHROMATIC_ABBERATION_OFFSET) CHROMATIC_ABBERATION_OFFSET)

/-- Distortion offset of the variant in `src/src/Scene.tsx` (lines 84–92),
which uses `Math.max` with no ceiling. -/
noncomputable def offsetPairMax (t : ℝ) : ℝ × ℝ :=
  (max 0 (decay t * CHROMATIC_ABBERATION_OFFSET),
   max 0 (decay t * CHROMATIC_ABBERATION_OFFSET))

/-- Velocity threshold of `Stars2` (`src/unnamed/part_002`, line 63). -/
def velocityToAnimateThreshold : ℝ := 0.1

/-- The start value of the warp flag `shouldAnimate`, set by the parent
`Backdrop` component (`src/OLD/Backdrop.tsx`, line 24, `useState(true)`) and
passed down to `Stars2` (line 47): the run begins in the warping phase. -/
def initialShouldAnimate : Bool := true

/-- The per-frame velocity signal of `Stars2` (`src/unnamed/part_002`,
lines 67–69): `(Math.cos(time) + 1) * 8.0` while warping, the threshold
constant once settled. -/
noncomputable def velocitySignal (shouldAnimate : Bool) (time : ℝ) : ℝ :=
  if shouldAnimate then (Real.cos time + 1) * 8 else velocityToAnimateThreshold

/-- The flag transition of `Stars2` (`src/unnamed/part_002`, lines 73–75):
the flag is cleared when the velocity signal is at or below the threshold
while still warping, and is left unchanged otherwise. -/
noncomputable def gateStep (shouldAnimate : Bool) (time : ℝ) : Bool :=
  if velocitySignal shouldAnimate time ≤ velocityToAnimateThreshold ∧ shouldAnimate = true
  then false
  else shouldAnimate

/-- The warp flag after a run of frames with the given clock times. -/
noncomputable def runGate (s : Bool) : List ℝ → Bool
  | [] => s
  | time :: rest => runGate (gateStep s time) rest

/- ### Helper lemmas -/

theorem clamp_le_hi (lo value hi : ℝ) : clamp lo value hi ≤ hi :=
  min_le_left _ _

theorem lo_le_clamp (lo value hi : ℝ) (h : lo ≤ hi) : lo ≤ clamp lo value hi :=
  le_min h (le_max_left _ _)

theorem clamp_eq_of_le (lo value hi : ℝ) (hv : value ≤ lo) (h : lo ≤ hi) :
    clamp lo value hi = lo := by
  unfold clamp
  rw [max_eq_left hv, min_eq_right h]

theorem clamp_eq_self (lo value hi : ℝ) (h1 : lo ≤ value) (h2 : value ≤ hi) :
    clamp lo value hi = value := by
  unfold clamp
  rw [max_eq_right h1, min_eq_right h2]

theorem decay_pos (t : ℝ) : 0 < decay t :=
  Real.rpow_pos_of_pos (by norm_num) t

theorem decay_le_one {t : ℝ} (ht : 0 ≤ t) : decay t ≤ 1 :=
  Real.rpow_le_one (by norm_num) (by norm_num) ht

theorem decay_zero : decay 0 = 1 := Real.rpow_zero _

theorem decay_strictAnti {s t : ℝ} (h : s < t) : decay t < decay s :=
  Real.rpow_lt_rpow_of_exponent_gt (by norm_num) (by norm_num) h

theorem decay_anti {s t : ℝ} (h : s ≤ t) : decay t ≤ decay s :=
  Real.rpow_le_rpow_of_exponent_ge (by norm_num) (by norm_num) h

/- ### C5: the decay function -/

/-- C5: `decay(t) = 0.5^t` satisfies, for all `t ≥ 0`: `decay t ∈ (0, 1]`,
`decay` is strictly decreasing, and `decay 0 = 1`. -/
theorem decay_spec (t : ℝ) (ht : 0 ≤ t) :
    0 < decay t ∧ decay t ≤ 1 ∧ (∀ s, 0 ≤ s → s < t → decay t < decay s) ∧
      decay 0 = 1 :=
  ⟨decay_pos t, decay_le_one ht, fun _ _ hs => decay_strictAnti hs, decay_zero⟩

/-- Witness for C5 at `t = 1`, `s = 0`: `decay 1 = 1/2 ∈ (0,1]` and
`decay 1 < decay 0 = 1`. -/
theorem decay_spec_witness :
    (0 : ℝ) ≤ 1 ∧ (0 < decay 1 ∧ decay 1 ≤ 1 ∧ decay 1 < decay 0 ∧ decay 0 = 1) := by
  have h := decay_spec 1 (by norm_num)
  exact ⟨by norm_num, h.1, h.2.1, h.2.2.1 0 (by norm_num) (by norm_num), h.2.2.2⟩

/- ### C4: stretch scale bounds -/

/-- C4: every frame's scale write is `(1, 1, scaleZ t)` with
`scaleZ t ∈ [1, MAX_SCALE_FACTOR]`. -/
theorem scale_bounds (elapsedTime : ℝ) :
    (updateScale elapsedTime).1 = 1 ∧ (updateScale elapsedTime).2.1 = 1 ∧
      1 ≤ scaleZ elapsedTime ∧ scaleZ elapsedTime ≤ MAX_SCALE_FACTOR := by
  refine ⟨rfl, rfl, ?_, clamp_le_hi _ _ _⟩
  exact lo_le_clamp _ _ _ (by norm_num [MAX_SCALE_FACTOR])

/- ### Concrete frame computations shared by several results -/

theorem step_at_start : step 0 1 = 1 := by
  unfold step
  rw [decay_zero]
  exact clamp_eq_self 1 1 (1 * MAX_SPEED_FACTOR) le_rfl (by norm_num [MAX_SPEED_FACTOR])

theorem updateZ_start_overshoot : updateZ 0 1 (-9.5) = -21 / 2 := by
  unfold updateZ
  rw [if_neg (by norm_num [Z_BOUNDS]), step_at_start]
  norm_num

theorem updateZ_start_zero : updateZ 0 1 0 = -1 := by
  unfold updateZ
  rw [if_neg (by norm_num [Z_BOUNDS]), step_at_start]
  norm_num

/- ### C2: the translation step -/

/-- C2: for `delta > 0` and a particle not at the recycle boundary, the
per-frame distance traveled equals `clamp delta (decay t) (delta * MAX_SPEED_FACTOR)`;
the step lies in `[delta, delta * MAX_SPEED_FACTOR]`, and whenever
`decay t < delta` the step equals `delta` exactly. -/
theorem step_spec (elapsedTime delta z : ℝ) (hd : 0 < delta)
    (hz : ¬ z < -Z_BOUNDS / 2) :
    z - updateZ elapsedTime delta z
        = clamp delta (decay elapsedTime) (delta * MAX_SPEED_FACTOR) ∧
    delta ≤ step elapsedTime delta ∧
    step elapsedTime delta ≤ delta * MAX_SPEED_FACTOR ∧
    (decay elapsedTime < delta → step elapsedTime delta = delta) := by
  have hbound : delta ≤ delta * MAX_SPEED_FACTOR := by
    have : (1 : ℝ) ≤ MAX_SPEED_FACTOR := by norm_num [MAX_SPEED_FACTOR]
    nlinarith
  refine ⟨?_, lo_le_clamp _ _ _ hbound, clamp_le_hi _ _ _, fun hlt => ?_⟩
  · unfold updateZ
    rw [if_neg hz]
    ring_nf
    rfl
  · exact clamp_eq_of_le _ _ _ hlt.le hbound

/-- Witness for C2 at `elapsedTime = 0`, `delta = 1`, `z = 0`. -/
theorem step_spec_witness :
    (0 : ℝ) < 1 ∧ ¬ (0 : ℝ) < -Z_BOUNDS / 2 ∧
    ((0 : ℝ) - updateZ 0 1 0 = clamp 1 (decay 0) (1 * MAX_SPEED_FACTOR) ∧
     1 ≤ step 0 1 ∧ step 0 1 ≤ 1 * MAX_SPEED_FACTOR ∧
     (decay 0 < 1 → step 0 1 = 1)) := by
  refine ⟨by norm_num, by norm_num [Z_BOUNDS], ?_⟩
  exact step_spec 0 1 0 (by norm_num) (by norm_num [Z_BOUNDS])

/- ### C6: monotonic settling of the step -/

/-- C6: for fixed `delta > 0` the step is non-increasing in elapsed time, and
once `decay t < delta` the step stays equal to `delta` for all later times. -/
theorem step_monotone_settling (delta s t u : ℝ) (hd : 0 < delta) (hst : s ≤ t) :
    step t delta ≤ step s delta ∧
    (decay t < delta → t ≤ u → step u delta = delta) := by
  have hbound : delta ≤ delta * MAX_SPEED_FACTOR := by
    have : (1 : ℝ) ≤ MAX_SPEED_FACTOR := by norm_num [MAX_SPEED_FACTOR]
    nlinarith
  constructor
  · exact min_le_min le_rfl (max_le_max le_rfl (decay_anti hst))
  · intro hlt htu
    have : decay u ≤ delta := (decay_anti htu).trans hlt.le
    exact clamp_eq_of_le _ _ _ this hbound

/-- Witness for C6 at `delta = 2`, `s = t = u = 0`: `decay 0 = 1 < 2`, so the
step already sits at the floor `2`. -/
theorem step_monotone_settling_witness :
    (0 : ℝ) < 2 ∧ (0 : ℝ) ≤ 0 ∧ step 0 2 ≤ step 0 2 ∧ step 0 2 = 2 := by
  have h := step_monotone_settling 2 0 0 0 (by norm_num) le_rfl
  exact ⟨by norm_num, le_rfl, h.1, h.2 (by rw [decay_zero]; norm_num) le_rfl⟩

/- ### C9: x and y are never mutated -/

/-- C9: the per-frame position write returns the stored `x` and `y` unchanged
on every frame (including a recycling frame); only `z` is recomputed. -/
theorem position_xy_constant (elapsedTime delta : ℝ) (p : Particle) :
    (updateParticle elapsedTime delta p).x = p.x ∧
    (updateParticle elapsedTime delta p).y = p.y ∧
    (updateParticle elapsedTime delta p).z = updateZ elapsedTime delta p.z :=
  ⟨rfl, rfl, rfl⟩

/- ### C7: distortion offset, clamp variant vs max variant -/

/-- C7: each frame writes `offset.x = offset.y = clamp 0 (decay t * BASE) BASE`,
and for every `t ≥ 0` the `max` variant computes exactly the same offsets. -/
theorem offset_variants_agree (t : ℝ) :
    (offsetPair t).1 = (offsetPair t).2 ∧
    (offsetPair t).1
      = clamp 0 (decay t * CHROMATIC_ABBERATION_OFFSET) CHROMATIC_ABBERATION_OFFSET ∧
    (0 ≤ t → offsetPairMax t = offsetPair t) := by
  refine ⟨rfl, rfl, fun ht => ?_⟩
  have h0 : 0 ≤ decay t * CHROMATIC_ABBERATION_OFFSET :=
    mul_nonneg (decay_pos t).le (by norm_num [CHROMATIC_ABBERATION_OFFSET])
  have h1 : decay t * CHROMATIC_ABBERATION_OFFSET ≤ CHROMATIC_ABBERATION_OFFSET :=
    mul_le_of_le_one_left (by norm_num [CHROMATIC_ABBERATION_OFFSET]) (decay_le_one ht)
  unfold offsetPairMax offsetPair
  rw [clamp_eq_self _ _ _ h0 h1, max_eq_right h0]

/-- Witness for C7 at `t = 0`: both variants write the full base offset. -/
theorem offset_variants_agree_witness :
    (0 : ℝ) ≤ 0 ∧
    ((offsetPair 0).1 = (offsetPair 0).2 ∧
     (offsetPair 0).1
       = clamp 0 (decay 0 * CHROMATIC_ABBERATION_OFFSET) CHROMATIC_ABBERATION_OFFSET ∧
     offsetPairMax 0 = offsetPair 0) := by
  have h := offset_variants_agree 0
  exact ⟨le_rfl, h.1, h.2.1, h.2.2 le_rfl⟩

/- ### Overshoot facts shared by C1, C3 and C10 -/

theorem colorOf_neg_of_overshoot {z : ℝ} (h : z < -Z_BOUNDS / 2) :
    (colorOf z).r < 0 := by
  have hz0 : ¬ z > 0 := by norm_num [Z_BOUNDS] at h ⊢; linarith
  unfold colorOf
  rw [if_neg hz0]
  norm_num [Z_BOUNDS] at h ⊢
  have : (1 : ℝ) < z / (-10) := by
    rw [lt_div_iff_of_neg (by norm_num : (-10 : ℝ) < 0)]
    linarith
  linarith

theorem updateZ_resets {t d z : ℝ} (h : z < -Z_BOUNDS / 2) :
    updateZ t d z = Z_BOUNDS / 2 := by
  unfold updateZ
  rw [if_pos h]

theorem colorOf_far_plane : colorOf (Z_BOUNDS / 2) = ⟨1, 1, 1⟩ := by
  unfold colorOf
  rw [if_pos (by norm_num [Z_BOUNDS])]

/- ### C10: the recycle check precedes the step -/

/-- C10: the boundary check and the step are mutually exclusive branches, with
the check first — so a particle whose `z` falls below `-Z_BOUNDS / 2` during
frame `k` was stepped in frame `k` (its old `z` was in range), keeps the
out-of-range `z` and the negative color computed from it through frame `k`,
and only in frame `k+1` is it reset to `Z_BOUNDS / 2`, where its color is
`(1, 1, 1)` since `Z_BOUNDS / 2 > 0`. -/
theorem recycle_is_deferred (t d u e z : ℝ) (h : updateZ t d z < -Z_BOUNDS / 2) :
    ¬ z < -Z_BOUNDS / 2 ∧
    updateZ t d z = z - step t d ∧
    (colorOf (updateZ t d z)).r < 0 ∧
    updateZ u e (updateZ t d z) = Z_BOUNDS / 2 ∧
    colorOf (updateZ u e (updateZ t d z)) = ⟨1, 1, 1⟩ := by
  have hnz : ¬ z < -Z_BOUNDS / 2 := by
    intro hz
    rw [updateZ_resets hz] at h
    norm_num [Z_BOUNDS] at h
  refine ⟨hnz, ?_, colorOf_neg_of_overshoot h, updateZ_resets h, ?_⟩
  · unfold updateZ
    rw [if_neg hnz]
  · rw [updateZ_resets h, colorOf_far_plane]

/-- Witness for C10: at `elapsedTime = 0`, `delta = 1` a particle at
`z = -9.5` steps to `z = -10.5 < -10`. -/
theorem recycle_is_deferred_witness :
    updateZ 0 1 (-9.5) < -Z_BOUNDS / 2 ∧
    (¬ (-9.5 : ℝ) < -Z_BOUNDS / 2 ∧
     updateZ 0 1 (-9.5) = -9.5 - step 0 1 ∧
     (colorOf (updateZ 0 1 (-9.5))).r < 0 ∧
     updateZ 2 1 (updateZ 0 1 (-9.5)) = Z_BOUNDS / 2 ∧
     colorOf (updateZ 2 1 (updateZ 0 1 (-9.5))) = ⟨1, 1, 1⟩) := by
  have hz : updateZ 0 1 (-9.5) < -Z_BOUNDS / 2 := by
    rw [updateZ_start_overshoot]
    norm_num [Z_BOUNDS]
  exact ⟨hz, recycle_is_deferred 0 1 2 1 (-9.5) hz⟩

/- ### C1: recycling is not same-frame -/

/-- C1 counterexample: at `elapsedTime = 0`, `delta = 1`, a particle at
`z = -9.5` drops below `-Z_BOUNDS / 2` during the frame, yet reads back as
`z = -10.5`, not `Z_BOUNDS / 2`, and its color is not `(0, 0, 0)`. -/
theorem recycle_lossless_cex :
    updateZ 0 1 (-9.5) < -Z_BOUNDS / 2 ∧
    updateZ 0 1 (-9.5) ≠ Z_BOUNDS / 2 ∧
    colorOf (updateZ 0 1 (-9.5)) ≠ ⟨0, 0, 0⟩ := by
  rw [updateZ_start_overshoot]
  refine ⟨by norm_num [Z_BOUNDS], by norm_num [Z_BOUNDS], fun hc => ?_⟩
  have : (colorOf (-21 / 2)).r = 0 := by rw [hc]
  have hneg : (colorOf ((-21 : ℝ) / 2)).r < 0 :=
    colorOf_neg_of_overshoot (by norm_num [Z_BOUNDS])
  rw [this] at hneg
  exact lt_irrefl 0 hneg

/-- C1 amended: a particle whose `z` drops below `-Z_BOUNDS / 2` in frame `k`
keeps the overshot `z` through frame `k`; it is reset to `z = Z_BOUNDS / 2`
in frame `k+1` (during which it is not stepped), and its color on that reset
frame is `(1, 1, 1)`. -/
theorem recycle_next_frame (t d u e z : ℝ) (h : updateZ t d z < -Z_BOUNDS / 2) :
    updateZ u e (updateZ t d z) = Z_BOUNDS / 2 ∧
    colorOf (updateZ u e (updateZ t d z)) = ⟨1, 1, 1⟩ := by
  rw [updateZ_resets h]
  exact ⟨rfl, colorOf_far_plane⟩

/-- Witness for the amended C1 at the concrete overshoot input. -/
theorem recycle_next_frame_witness :
    updateZ 0 1 (-9.5) < -Z_BOUNDS / 2 ∧
    (updateZ 3 1 (updateZ 0 1 (-9.5)) = Z_BOUNDS / 2 ∧
     colorOf (updateZ 3 1 (updateZ 0 1 (-9.5))) = ⟨1, 1, 1⟩) := by
  have hz : updateZ 0 1 (-9.5) < -Z_BOUNDS / 2 := by
    rw [updateZ_start_overshoot]
    norm_num [Z_BOUNDS]
  exact ⟨hz, recycle_next_frame 0 1 3 1 (-9.5) hz⟩

/- ### C3: color monochrome and in range -/

theorem colorOf_components_eq (z : ℝ) :
    (colorOf z).r = (colorOf z).g ∧ (colorOf z).g = (colorOf z).b := by
  unfold colorOf
  split_ifs <;> exact ⟨rfl, rfl⟩

theorem colorOf_le_one (z : ℝ) : (colorOf z).r ≤ 1 := by
  unfold colorOf
  split_ifs with h0
  · norm_num
  · push_neg at h0
    have hd : z / (-Z_BOUNDS / 2) = -(z / 10) := by
      norm_num [Z_BOUNDS]
      ring
    rw [hd]
    linarith

theorem colorOf_nonneg {z : ℝ} (h : -Z_BOUNDS / 2 ≤ z) : 0 ≤ (colorOf z).r := by
  unfold colorOf
  split_ifs with h0
  · norm_num
  · push_neg at h0
    have hd : z / (-Z_BOUNDS / 2) = -(z / 10) := by
      norm_num [Z_BOUNDS]
      ring
    norm_num [Z_BOUNDS] at h
    rw [hd]
    linarith

/-- C3 counterexample: at `elapsedTime = 0`, `delta = 1`, a particle at
`z = -9.5` (in the legal range) steps past the near plane, and the color
written for it that frame is negative — outside `[0, 1]`. -/
theorem color_range_cex :
    (colorOf (updateZ 0 1 (-9.5))).r < 0 ∧
    ¬ (0 ≤ (colorOf (updateZ 0 1 (-9.5))).r ∧ (colorOf (updateZ 0 1 (-9.5))).r ≤ 1) := by
  have h : (colorOf (updateZ 0 1 (-9.5))).r < 0 := by
    apply colorOf_neg_of_overshoot
    rw [updateZ_start_overshoot]
    norm_num [Z_BOUNDS]
  exact ⟨h, fun hc => absurd hc.1 (not_le.mpr h)⟩

/-- C3 amended: the color written each frame is always monochrome and never
above 1; it lies in `[0, 1]` whenever the particle's updated `z` has not
overshot the near plane (`updateZ ≥ -Z_BOUNDS / 2`), while on an overshoot
frame the components are negative. -/
theorem color_monochrome_bounds (t d z : ℝ) :
    (colorOf (updateZ t d z)).r = (colorOf (updateZ t d z)).g ∧
    (colorOf (updateZ t d z)).g = (colorOf (updateZ t d z)).b ∧
    (colorOf (updateZ t d z)).r ≤ 1 ∧
    (-Z_BOUNDS / 2 ≤ updateZ t d z → 0 ≤ (colorOf (updateZ t d z)).r) ∧
    (updateZ t d z < -Z_BOUNDS / 2 → (colorOf (updateZ t d z)).r < 0) :=
  ⟨(colorOf_components_eq _).1, (colorOf_components_eq _).2, colorOf_le_one _,
   fun h => colorOf_nonneg h, fun h => colorOf_neg_of_overshoot h⟩

/-- Witness for the amended C3 at `elapsedTime = 0`, `delta = 1`, `z = 0`:
the frame leaves `z = -1`, within range, and the color is in `[0, 1]`. -/
theorem color_monochrome_bounds_witness :
    -Z_BOUNDS / 2 ≤ updateZ 0 1 0 ∧
    ((colorOf (updateZ 0 1 0)).r = (colorOf (updateZ 0 1 0)).g ∧
     (colorOf (updateZ 0 1 0)).g = (colorOf (updateZ 0 1 0)).b ∧
     (colorOf (updateZ 0 1 0)).r ≤ 1 ∧
     0 ≤ (colorOf (updateZ 0 1 0)).r) := by
  have hz : -Z_BOUNDS / 2 ≤ updateZ 0 1 0 := by
    rw [updateZ_start_zero]
    norm_num [Z_BOUNDS]
  have h := color_monochrome_bounds 0 1 0
  exact ⟨hz, h.1, h.2.1, h.2.2.1, h.2.2.2.1 hz⟩

/- ### C8: the warp phase gate -/

theorem gateStep_false (time : ℝ) : gateStep false time = false := by
  unfold gateStep
  rw [if_neg]
  simp

theorem runGate_false (ts : List ℝ) : runGate false ts = false := by
  induction ts with
  | nil => rfl
  | cons time rest ih =>
    unfold runGate
    rw [gateStep_false]
    exact ih

theorem gateStep_true_of_le {time : ℝ}
    (h : velocitySignal true time ≤ velocityToAnimateThreshold) :
    gateStep true time = false := by
  unfold gateStep
  rw [if_pos ⟨h, rfl⟩]

theorem gateStep_true_of_gt {time : ℝ}
    (h : ¬ velocitySignal true time ≤ velocityToAnimateThreshold) :
    gateStep true time = true := by
  unfold gateStep
  rw [if_neg (fun hc => h hc.1)]

theorem runGate_true_iff (ts : List ℝ) :
    runGate true ts = false ↔
      ∃ time ∈ ts, velocitySignal true time ≤ velocityToAnimateThreshold := by
  induction ts with
  | nil => simp [runGate]
  | cons time rest ih =>
    unfold runGate
    by_cases h : velocitySignal true time ≤ velocityToAnimateThreshold
    · rw [gateStep_true_of_le h, runGate_false]
      constructor
      · intro _
        exact ⟨time, List.mem_cons_self time rest, h⟩
      · intro _
        rfl
    · rw [gateStep_true_of_gt h, ih]
      constructor
      · rintro ⟨x, hx, hP⟩
        exact ⟨x, List.mem_cons_of_mem _ hx, hP⟩
      · rintro ⟨x, hx, hP⟩
        rcases List.mem_cons.mp hx with hx | hx
        · subst hx
          exact absurd hP h
        · exact ⟨x, hx, hP⟩

/-- C8: the warp flag starts `true` (Warping); starting from it, a run of
frames ends settled (`false`) exactly when some frame's velocity signal is at
or below the threshold — so the clear fires at the first such frame — and
from the settled state the flag stays `false` for any remaining frames. -/
theorem warp_gate_spec (ts rest : List ℝ) :
    initialShouldAnimate = true ∧
    runGate false rest = false ∧
    (runGate initialShouldAnimate ts = false ↔
      ∃ time ∈ ts, velocitySignal true time ≤ velocityToAnimateThreshold) :=
  ⟨rfl, runGate_false rest, runGate_true_iff ts⟩
